import Mathlib

/-
Verification development for the Okular DVI-loader core and the rotation
worker.  The rotation worker (src/core/rotationjob.cpp) is embedded
directly from the source.  The DVI parsing passes are declared in
src/dviFile.h but their bodies (dviFile.cpp) are not part of the surviving
sources, so they are modelled from the specification (spec.md sections
2, 3, 4 and 7), keeping the names declared in dviFile.h.
-/

namespace Okular

/-! ## Rotation worker (embedded from src/core/rotationjob.cpp) -/

/-- The four fixed orientations of `RotationJob::Rotation`. -/
inductive Rotation
  | Rotation0
  | Rotation90
  | Rotation180
  | Rotation270
deriving DecidableEq

/-- Degrees of an orientation. -/
def Rotation.deg : Rotation → Nat
  | .Rotation0 => 0
  | .Rotation90 => 90
  | .Rotation180 => 180
  | .Rotation270 => 270

/-- A raster image: width, height and a row-major pixel list.  A pixel is a
packed colour value (a natural number).  `QImage()` (the default
constructor) is the null image. -/
structure QImage where
  width : Nat
  height : Nat
  pixels : List Nat
deriving DecidableEq

/-- The default-constructed (null) `QImage`. -/
def QImage.nullImage : QImage := ⟨0, 0, []⟩

/-- Pixel at row `r`, column `c` (0 outside the stored list). -/
def QImage.pixelAt (img : QImage) (r c : Nat) : Nat :=
  img.pixels.getD (r * img.width + c) 0

/-- Well-formedness: the pixel list has exactly `width * height` entries. -/
def QImage.wf (img : QImage) : Prop :=
  img.pixels.length = img.width * img.height

instance (img : QImage) : Decidable img.wf := by
  unfold QImage.wf; infer_instance

/-- One clockwise quarter turn of the pixel grid: the semantics of
`QImage::transformed` with a `QMatrix` on which `rotate(90)` was called.
The pixel of the result at row `r`, column `c` is the source pixel at row
`height - 1 - c`, column `r`. -/
def rotate90cw (img : QImage) : QImage :=
  { width := img.height
    height := img.width
    pixels := (List.range (img.width * img.height)).map fun i =>
      img.pixelAt (img.height - 1 - i % img.height) (i / img.height) }

/-- `n` clockwise quarter turns. -/
def rotQuarter : Nat → QImage → QImage
  | 0, img => img
  | n + 1, img => rotQuarter n (rotate90cw img)

/-- `QImage::transformed` with a matrix holding a rotation by `deg`
degrees, for the 90-degree multiples used by `RotationJob::run`. -/
def applyRotationAngle (deg : Nat) (img : QImage) : QImage :=
  rotQuarter (deg % 360 / 90) img

/-- The state of a `RotationJob`: constructor arguments plus the
`mRotatedImage` member (default-constructed until `run` stores into it). -/
structure RotationJob where
  mImage : QImage
  mOldRotation : Rotation
  mNewRotation : Rotation
  mId : Int
  mRotatedImage : QImage
deriving DecidableEq

/-- The `RotationJob` constructor: stores the four arguments;
`mRotatedImage` is default constructed (the null image). -/
def RotationJob.make (image : QImage) (oldRotation newRotation : Rotation)
    (id : Int) : RotationJob :=
  ⟨image, oldRotation, newRotation, id, QImage.nullImage⟩

/-- `RotationJob::image()` returns `mRotatedImage`. -/
def RotationJob.image (j : RotationJob) : QImage := j.mRotatedImage

/-- `RotationJob::rotation()` returns `mNewRotation`. -/
def RotationJob.rotation (j : RotationJob) : Rotation := j.mNewRotation

/-- `RotationJob::id()` returns `mId`. -/
def RotationJob.id (j : RotationJob) : Int := j.mId

/-- The angle given to `matrix.rotate` by `RotationJob::run`, mirroring
the nested `if` cascade of the source; `0` means the matrix is left as
the identity (which only happens on the diagonal, where `run` returns
early anyway). -/
def rotationMatrixAngle (o n : Rotation) : Nat :=
  if o = Rotation.Rotation0 then
    if n = Rotation.Rotation90 then 90
    else if n = Rotation.Rotation180 then 180
    else if n = Rotation.Rotation270 then 270
    else 0
  else if o = Rotation.Rotation90 then
    if n = Rotation.Rotation180 then 90
    else if n = Rotation.Rotation270 then 180
    else if n = Rotation.Rotation0 then 270
    else 0
  else if o = Rotation.Rotation180 then
    if n = Rotation.Rotation270 then 90
    else if n = Rotation.Rotation0 then 180
    else if n = Rotation.Rotation90 then 270
    else 0
  else
    if n = Rotation.Rotation0 then 90
    else if n = Rotation.Rotation90 then 180
    else if n = Rotation.Rotation180 then 270
    else 0

/-- `RotationJob::run`: when the orientations agree the input image is
copied to `mRotatedImage` without building a transform; otherwise the
image transformed by the selected rotation matrix is stored. -/
def RotationJob.run (j : RotationJob) : RotationJob :=
  if j.mOldRotation = j.mNewRotation then
    { j with mRotatedImage := j.mImage }
  else
    { j with mRotatedImage :=
        applyRotationAngle (rotationMatrixAngle j.mOldRotation j.mNewRotation) j.mImage }

/-- Submitting one rotation job `a → b` and a second job `b → c` on its
output, returning the final image. -/
def composeJobs (img : QImage) (a b c : Rotation) (i : Int) : QImage :=
  (RotationJob.run (RotationJob.make
      (RotationJob.run (RotationJob.make img a b i)).image b c i)).image

/-! ## DVI loader (declared in src/dviFile.h, bodies modelled from spec.md) -/

/-- A raw byte buffer. -/
abbrev Buffer := List Nat

/-- Opcode tag of the preamble (first byte of a DVI file). -/
def preTag : Nat := 247
/-- Opcode tag of the postamble. -/
def postTag : Nat := 248
/-- End-of-postamble opcode, also the first half of the trailer marker. -/
def postPostTag : Nat := 249
/-- Begin-page opcode. -/
def bopTag : Nat := 139
/-- End-page opcode. -/
def eopTag : Nat := 140
/-- Font-definition opcode inside the postamble. -/
def fntDefTag : Nat := 243
/-- Font-selection opcode inside a page. -/
def fntSelTag : Nat := 235
/-- Special (external inclusion / source marker) opcode inside a page. -/
def xxxTag : Nat := 239
/-- Trailer padding byte. -/
def paddingByte : Nat := 223
/-- DVI format version byte, second half of the trailer marker. -/
def dviVersion : Nat := 2

/-- Read one byte at `pos` (ByteCursor). -/
def readU8 (buf : Buffer) (pos : Nat) : Option Nat := buf[pos]?

/-- Read a big-endian 16-bit integer at `pos`. -/
def readU16 (buf : Buffer) (pos : Nat) : Option Nat := do
  let a ← buf[pos]?
  let b ← buf[pos + 1]?
  pure (a * 256 + b)

/-- Read a big-endian 32-bit integer at `pos`. -/
def readU32 (buf : Buffer) (pos : Nat) : Option Nat := do
  let a ← buf[pos]?
  let b ← buf[pos + 1]?
  let c ← buf[pos + 2]?
  let d ← buf[pos + 3]?
  pure (((a * 256 + b) * 256 + c) * 256 + d)

/-- The five hard load errors of the spec's error taxonomy (section 7). -/
inductive LoadError
  | MalformedHeader
  | TruncatedFile
  | CorruptPostamble
  | InconsistentUnits
  | CorruptPage
deriving DecidableEq

/-- Preamble data (spec section 3). -/
structure Preamble where
  version : Nat
  num : Nat
  den : Nat
  mag : Nat
  comment : List Nat
deriving DecidableEq

/-- Postamble data (spec section 3). -/
structure Postamble where
  lastPageOffset : Nat
  num : Nat
  den : Nat
  mag : Nat
  maxH : Nat
  maxW : Nat
  maxStack : Nat
  totalPages : Nat
deriving DecidableEq

/-- A font-definition record (spec section 3). -/
structure TeXFontDefinition where
  fontId : Nat
  checksum : Nat
  scaledSize : Nat
  designSize : Nat
  fontname : List Nat
deriving DecidableEq

/-- The three kinds of tolerated anomalies (spec section 7).  The load
keeps a log of them alongside the error counter so that the counter's
meaning can be stated. -/
inductive Anomaly
  | DuplicateFontChecksum
  | UndefinedFontRef
  | MalformedSpecial
deriving DecidableEq

/-- Mutable state threaded through font-table building and page scanning:
the font registry, the tolerated-anomaly counter with its log, the
external-resource counter and the one-shot source-special notice flag. -/
structure ScanState where
  tn_table : List TeXFontDefinition
  errorCounter : Nat
  anomalies : List Anomaly
  numberOfExternalPSFiles : Nat
  sourceSpecialMarker : Bool
deriving DecidableEq

/-- The state at the start of a load: empty registry, error counter zero,
no resources seen, notice flag clear. -/
def initialScanState : ScanState := ⟨[], 0, [], 0, false⟩

/-- Lookup in the font registry by font id (first match). -/
def lookupFont (t : List TeXFontDefinition) (fid : Nat) : Option TeXFontDefinition :=
  t.find? fun f => f.fontId == fid

/-- Placeholder definition inserted when a page references an undefined
font id. -/
def placeholderFont (fid : Nat) : TeXFontDefinition := ⟨fid, 0, 0, 0, []⟩

/-- Modelled from the spec: FontTableBuilder's registry insertion
(section 4.4; body of dviFile.cpp missing from src/).  First-writer-wins:
a record whose id is already present with a differing checksum is a
tolerated anomaly (counter incremented, first-seen definition kept); with
the same checksum it is ignored. -/
def defineFont (st : ScanState) (fd : TeXFontDefinition) : ScanState :=
  match lookupFont st.tn_table fd.fontId with
  | none => { st with tn_table := st.tn_table ++ [fd] }
  | some old =>
    if old.checksum ≠ fd.checksum then
      { st with errorCounter := st.errorCounter + 1
                anomalies := st.anomalies ++ [Anomaly.DuplicateFontChecksum] }
    else st

/-- Modelled from the spec: lightweight handling of a font-selection
opcode during the page scan (section 4.5(a); body of dviFile.cpp missing
from src/): a reference to an undefined font id inserts a placeholder and
increments the error counter. -/
def refFont (st : ScanState) (fid : Nat) : ScanState :=
  match lookupFont st.tn_table fid with
  | some _ => st
  | none =>
    { st with tn_table := st.tn_table ++ [placeholderFont fid]
              errorCounter := st.errorCounter + 1
              anomalies := st.anomalies ++ [Anomaly.UndefinedFontRef] }

/-- Byte pattern marking a PostScript-file-inclusion special. -/
def psPat : List Nat := [80, 83, 58]

/-- Byte pattern marking a source-correlation special. -/
def srcPat : List Nat := [115, 114, 99, 58]

/-- Does the special's content denote a PostScript file inclusion? -/
def isPSIncl (content : List Nat) : Bool := psPat.isPrefixOf content

/-- Does the special's content denote a source-correlation marker? -/
def isSrcMark (content : List Nat) : Bool := srcPat.isPrefixOf content

/-- Modelled from the spec: recording one well-formed special during the
page scan (section 4.5(b),(c); body of dviFile.cpp missing from src/). -/
def recordSpecial (st : ScanState) (content : List Nat) : ScanState :=
  { st with
      numberOfExternalPSFiles :=
        st.numberOfExternalPSFiles + (if isPSIncl content then 1 else 0)
      sourceSpecialMarker := st.sourceSpecialMarker || isSrcMark content }

/-- Modelled from the spec: PreambleReader (section 4.1; body of
dviFile.cpp missing from src/).  Reads the opcode tag, version byte,
numerator, denominator, magnification and length-prefixed comment from
offset 0; any mismatch, zero numerator/denominator or short read is
`MalformedHeader`.  Returns the preamble and the cursor position just
past it. -/
def process_preamble (buf : Buffer) : Except LoadError (Preamble × Nat) :=
  match buf[0]?, buf[1]?, readU32 buf 2, readU32 buf 6, readU32 buf 10, buf[14]? with
  | some t, some v, some num, some den, some mag, some k =>
    if t = preTag ∧ num ≠ 0 ∧ den ≠ 0 ∧ 15 + k ≤ buf.length then
      .ok (⟨v, num, den, mag, (buf.drop 15).take k⟩, 15 + k)
    else .error .MalformedHeader
  | _, _, _, _, _, _ => .error .MalformedHeader

/-- Number of trailing padding bytes. -/
def countTrailingPadding (buf : Buffer) : Nat :=
  (buf.reverse.takeWhile fun b => b == paddingByte).length

/-- Modelled from the spec: PostambleLocator (section 4.2; body of
dviFile.cpp missing from src/).  Skips the run of trailing padding bytes,
expects the two-byte version-confirmation marker, reads the four-byte
back-pointer and validates that it lands in bounds on the postamble
opcode.  Missing padding or marker is `TruncatedFile`; a back-pointer out
of range or a tag mismatch is `CorruptPostamble`. -/
def find_postamble (buf : Buffer) : Except LoadError Nat :=
  if countTrailingPadding buf = 0 then .error .TruncatedFile
  else if buf.length - countTrailingPadding buf < 6 then .error .TruncatedFile
  else if buf.getD (buf.length - countTrailingPadding buf - 2) 0 = postPostTag ∧
          buf.getD (buf.length - countTrailingPadding buf - 1) 0 = dviVersion then
    match readU32 buf (buf.length - countTrailingPadding buf - 6) with
    | some bp =>
      if bp < buf.length ∧ buf.getD bp 0 = postTag then .ok bp
      else .error .CorruptPostamble
    | none => .error .TruncatedFile
  else .error .TruncatedFile

/-- Modelled from the spec: FontTableBuilder's loop over the postamble's
font-definition records (sections 4.3 and 4.4; body of dviFile.cpp
missing from src/).  A record holds font id, checksum, scaled size and
design size as u32, one length byte each for area and name, then the
bytes of both strings.  The loop ends at the end-of-postamble opcode;
running out of bytes (or an unknown opcode) is `CorruptPostamble`. -/
def readFontDefs (buf : Buffer) : Nat → Nat → ScanState → Except LoadError ScanState
  | 0, _, _ => .error .CorruptPostamble
  | fuel + 1, pos, st =>
    match buf[pos]? with
    | none => .error .CorruptPostamble
    | some op =>
      if op = postPostTag then .ok st
      else if op = fntDefTag then
        match readU32 buf (pos + 1), readU32 buf (pos + 5), readU32 buf (pos + 9),
              readU32 buf (pos + 13), buf[pos + 17]?, buf[pos + 18]? with
        | some fid, some cs, some ss, some ds, some a, some l =>
          if pos + 19 + a + l ≤ buf.length then
            readFontDefs buf fuel (pos + 19 + a + l)
              (defineFont st ⟨fid, cs, ss, ds, (buf.drop (pos + 19)).take (a + l)⟩)
          else .error .CorruptPostamble
        | _, _, _, _, _, _ => .error .CorruptPostamble
      else .error .CorruptPostamble

/-- Modelled from the spec: PostambleReader (section 4.3; body of
dviFile.cpp missing from src/).  Reads the postamble fields from the
validated offset, cross-checks numerator, denominator and magnification
against the preamble (`InconsistentUnits` on mismatch), then reads the
font-definition records.  A short read is `CorruptPostamble`. -/
def read_postamble (buf : Buffer) (pre : Preamble) (p : Nat) :
    Except LoadError (Postamble × ScanState) :=
  match readU32 buf (p + 1), readU32 buf (p + 5), readU32 buf (p + 9),
        readU32 buf (p + 13), readU32 buf (p + 17), readU32 buf (p + 21),
        readU16 buf (p + 25), readU16 buf (p + 27) with
  | some lastOff, some num, some den, some mag, some maxH, some maxW,
    some maxStack, some totalPages =>
    if num = pre.num ∧ den = pre.den ∧ mag = pre.mag then
      match readFontDefs buf buf.length (p + 29) initialScanState with
      | .ok st => .ok (⟨lastOff, num, den, mag, maxH, maxW, maxStack, totalPages⟩, st)
      | .error e => .error e
    else .error .InconsistentUnits
  | _, _, _, _, _, _, _, _ => .error .CorruptPostamble

/-- Modelled from the spec: PageIndexer's back-pointer chase (section
4.5; body of dviFile.cpp missing from src/).  From the last page's
offset, each begin-page record's embedded back-pointer leads to the
previous page; after exactly `totalPages` steps the chain must terminate
at offset 0.  A pointer out of bounds, a missing begin-page tag, or a
chain of the wrong length is `CorruptPage`.  Returns the offsets in file
order. -/
def chasePages (buf : Buffer) : Nat → Nat → Except LoadError (List Nat)
  | 0, pos => if pos = 0 then .ok [] else .error .CorruptPage
  | steps + 1, pos =>
    if pos < buf.length then
      if buf.getD pos 0 = bopTag then
        match readU32 buf (pos + 1) with
        | none => .error .CorruptPage
        | some prev =>
          match chasePages buf steps prev with
          | .ok rest => .ok (rest ++ [pos])
          | .error e => .error e
      else .error .CorruptPage
    else .error .CorruptPage

/-- Modelled from the spec: the lightweight content scan of one page
(section 4.5; body of dviFile.cpp missing from src/).  Walks bytes from
`pos` up to `stop` (never past the buffer): a font-selection opcode
resolves its id against the registry, a well-formed special is recorded,
a special whose declared length overruns the page is a tolerated
anomaly (skipped, counter incremented, scan of this page ends), the
end-of-page opcode stops the scan, any other byte is skipped. -/
def scanPageContent (buf : Buffer) : Nat → Nat → Nat → ScanState → ScanState
  | 0, _, _, st => st
  | fuel + 1, pos, stop, st =>
    if stop ≤ pos then st
    else
      match buf[pos]? with
      | none => st
      | some op =>
        if op = eopTag then st
        else if op = fntSelTag then
          match buf[pos + 1]? with
          | none => st
          | some fid => scanPageContent buf fuel (pos + 2) stop (refFont st fid)
        else if op = xxxTag then
          match buf[pos + 1]? with
          | none => st
          | some l =>
            if pos + 2 + l ≤ stop then
              scanPageContent buf fuel (pos + 2 + l) stop
                (recordSpecial st ((buf.drop (pos + 2)).take l))
            else
              { st with errorCounter := st.errorCounter + 1
                        anomalies := st.anomalies ++ [Anomaly.MalformedSpecial] }
        else scanPageContent buf fuel (pos + 1) stop st

/-- Modelled from the spec: PageIndexer's per-page content scans (section
4.5; body of dviFile.cpp missing from src/).  Each page's content starts
just past its begin-page record (tag plus back-pointer) and is bounded by
the next page's offset (the postamble offset for the last page). -/
def prepare_pages (buf : Buffer) : List Nat → Nat → ScanState → ScanState
  | [], _, st => st
  | o :: rest, postOff, st =>
    let stop := match rest with
      | [] => postOff
      | o2 :: _ => o2
    prepare_pages buf rest postOff (scanPageContent buf buf.length (o + 5) stop st)

/-- Centimeters per DVI unit, a pure function of the preamble's
numerator/denominator and the magnification (spec section 3), computed
once on a successfully parsed preamble. -/
def cmFromUnits (num den mag : Nat) : Rat :=
  ((num : Rat) * mag) / ((den : Rat) * 1000 * 100000)

/-- The fully parsed DVI file: the public surface declared in
src/dviFile.h plus the anomaly log that gives the error counter its
meaning. -/
structure dvifile where
  dvi_Data : Buffer
  size_of_file : Nat
  generatorString : List Nat
  total_pages : Nat
  page_offset : List Nat
  beginning_of_postamble : Nat
  last_page_offset : Nat
  magnification : Nat
  unit_num : Nat
  unit_den : Nat
  cmPerDVIunit : Rat
  tn_table : List TeXFontDefinition
  numberOfExternalPSFiles : Nat
  sourceSpecialMarker : Bool
  prescan_is_performed : Bool
  errorCounter : Nat
  anomalies : List Anomaly
deriving DecidableEq

/-- Modelled from the spec: the DviFile constructor (section 4.6; body of
dviFile.cpp missing from src/).  Drives the four passes in order —
preamble, postamble locate, postamble read plus fonts, page index — and
either returns the first hard error or a fully assembled `dvifile`. -/
def load (buf : Buffer) : Except LoadError dvifile :=
  match process_preamble buf with
  | .error e => .error e
  | .ok (pre, _) =>
    match find_postamble buf with
    | .error e => .error e
    | .ok p =>
      match read_postamble buf pre p with
      | .error e => .error e
      | .ok (post, st1) =>
        match chasePages buf post.totalPages post.lastPageOffset with
        | .error e => .error e
        | .ok offs =>
          let st2 := prepare_pages buf offs p st1
          .ok { dvi_Data := buf
                size_of_file := buf.length
                generatorString := pre.comment
                total_pages := post.totalPages
                page_offset := offs
                beginning_of_postamble := p
                last_page_offset := post.lastPageOffset
                magnification := pre.mag
                unit_num := pre.num
                unit_den := pre.den
                cmPerDVIunit := cmFromUnits pre.num pre.den pre.mag
                tn_table := st2.tn_table
                numberOfExternalPSFiles := st2.numberOfExternalPSFiles
                sourceSpecialMarker := st2.sourceSpecialMarker
                prescan_is_performed := false
                errorCounter := st2.errorCounter
                anomalies := st2.anomalies }

/-- Take-and-clear of the one-shot notice flag (cleared externally after
first use). -/
def dvifile.clearSourceSpecialMarker (d : dvifile) : dvifile :=
  { d with sourceSpecialMarker := false }

/-- External increment of the error counter (the one field tooling may
keep mutating after construction). -/
def dvifile.bumpErrorCounter (d : dvifile) : dvifile :=
  { d with errorCounter := d.errorCounter + 1 }

/-! ## Synthetic valid DVI buffers (for the testable properties) -/

/-- Big-endian bytes of a 32-bit value. -/
def u32Bytes (n : Nat) : Buffer :=
  [n / 16777216 % 256, n / 65536 % 256, n / 256 % 256, n % 256]

/-- Big-endian bytes of a 16-bit value. -/
def u16Bytes (n : Nat) : Buffer :=
  [n / 256 % 256, n % 256]

/-- Bytes of a synthetic preamble. -/
def preambleBytes (num den mag : Nat) (comment : List Nat) : Buffer :=
  preTag :: dviVersion ::
    (u32Bytes num ++ (u32Bytes den ++ (u32Bytes mag ++ (comment.length :: comment))))

/-- One synthetic begin-page block: tag, back-pointer, content, end tag. -/
def pageBlock (prev : Nat) (content : List Nat) : Buffer :=
  bopTag :: (u32Bytes prev ++ (content ++ [eopTag]))

/-- Bytes of a list of synthetic pages laid out from `start`, each block
carrying the previous block's offset as its back-pointer (`prev` for the
first). -/
def pagesBytes : Nat → Nat → List (List Nat) → Buffer
  | _, _, [] => []
  | start, prev, c :: rest =>
    pageBlock prev c ++ pagesBytes (start + (6 + c.length)) start rest

/-- Total size of the synthetic page blocks. -/
def sizePages : List (List Nat) → Nat
  | [] => 0
  | c :: rest => 6 + c.length + sizePages rest

/-- The file offsets of the synthetic pages in file order. -/
def offsetsOf : Nat → List (List Nat) → List Nat
  | _, [] => []
  | start, c :: rest => start :: offsetsOf (start + (6 + c.length)) rest

/-- The offset of the last synthetic page (`prev` when there are none). -/
def lastOffsetOf : Nat → Nat → List (List Nat) → Nat
  | _, prev, [] => prev
  | start, _, c :: rest => lastOffsetOf (start + (6 + c.length)) start rest

/-- Bytes of a synthetic postamble with no font-definition records. -/
def postambleBytes (lastOff num den mag npages : Nat) : Buffer :=
  postTag :: (u32Bytes lastOff ++ (u32Bytes num ++ (u32Bytes den ++ (u32Bytes mag ++
    (u32Bytes 0 ++ (u32Bytes 0 ++ (u16Bytes 0 ++ (u16Bytes npages ++ [postPostTag]))))))))

/-- Bytes of the synthetic trailer: back-pointer, marker, padding. -/
def trailerBytes (postOff : Nat) : Buffer :=
  u32Bytes postOff ++ [postPostTag, dviVersion, paddingByte, paddingByte, paddingByte, paddingByte]

/-- A complete synthetic valid DVI buffer: preamble, page blocks with a
back-pointer chain terminating at 0, postamble, trailer. -/
def mkDvi (num den mag : Nat) (comment : List Nat) (pages : List (List Nat)) : Buffer :=
  preambleBytes num den mag comment ++
    pagesBytes (15 + comment.length) 0 pages ++
    postambleBytes (lastOffsetOf (15 + comment.length) 0 pages) num den mag pages.length ++
    trailerBytes (15 + comment.length + sizePages pages)

/-- The `dvifile` that loading a synthetic valid buffer produces. -/
def mkDviFile (num den mag : Nat) (comment : List Nat) (pages : List (List Nat)) : dvifile :=
  let buf := mkDvi num den mag comment pages
  let offs := offsetsOf (15 + comment.length) pages
  let p := 15 + comment.length + sizePages pages
  let st2 := prepare_pages buf offs p initialScanState
  { dvi_Data := buf
    size_of_file := buf.length
    generatorString := comment
    total_pages := pages.length
    page_offset := offs
    beginning_of_postamble := p
    last_page_offset := lastOffsetOf (15 + comment.length) 0 pages
    magnification := mag
    unit_num := num
    unit_den := den
    cmPerDVIunit := cmFromUnits num den mag
    tn_table := st2.tn_table
    numberOfExternalPSFiles := st2.numberOfExternalPSFiles
    sourceSpecialMarker := st2.sourceSpecialMarker
    prescan_is_performed := false
    errorCounter := st2.errorCounter
    anomalies := st2.anomalies }

/-- Invariant relating the error counter to the anomaly log on a load
result: a successful load counted exactly its tolerated anomalies. -/
def counterInvariant (r : Except LoadError dvifile) : Prop :=
  match r with
  | .ok d => d.errorCounter = d.anomalies.length
  | .error _ => True

/-- Completeness of construction: on a successful load, every pass ran to
completion and every public field holds the value assembled from the
passes' outputs. -/
def loadCompleteness (buf : Buffer) : Prop :=
  match load buf with
  | .error _ => True
  | .ok d =>
    ∃ pre c p post st1 offs,
      process_preamble buf = .ok (pre, c) ∧
      find_postamble buf = .ok p ∧
      read_postamble buf pre p = .ok (post, st1) ∧
      chasePages buf post.totalPages post.lastPageOffset = .ok offs ∧
      d.total_pages = post.totalPages ∧
      d.page_offset = offs ∧
      d.beginning_of_postamble = p ∧
      d.last_page_offset = post.lastPageOffset ∧
      d.magnification = pre.mag ∧
      d.unit_num = pre.num ∧
      d.unit_den = pre.den ∧
      d.cmPerDVIunit = cmFromUnits pre.num pre.den pre.mag ∧
      d.generatorString = pre.comment ∧
      d.tn_table = (prepare_pages buf offs p st1).tn_table ∧
      d.numberOfExternalPSFiles = (prepare_pages buf offs p st1).numberOfExternalPSFiles ∧
      d.sourceSpecialMarker = (prepare_pages buf offs p st1).sourceSpecialMarker ∧
      d.errorCounter = (prepare_pages buf offs p st1).errorCounter ∧
      d.prescan_is_performed = false

end Okular

namespace Okular

/-! ## Rotation worker: lemmas and claims -/

lemma row_col_lt {a b w h : Nat} (ha : a < w) (hb : b < h) :
    a * h + b < w * h := by
  calc a * h + b < a * h + h := by omega
    _ = (a + 1) * h := by ring
    _ ≤ w * h := Nat.mul_le_mul_right h ha

lemma rotate90cw_pixels_length (img : QImage) :
    (rotate90cw img).pixels.length = img.width * img.height := by
  simp [rotate90cw]

lemma pixelAt_rotate90cw (img : QImage) (a b : Nat)
    (ha : a < img.width) (hb : b < img.height) :
    (rotate90cw img).pixelAt a b = img.pixelAt (img.height - 1 - b) a := by
  have hb0 : 0 < img.height := by omega
  have hidx : a * img.height + b < img.width * img.height := row_col_lt ha hb
  have hlen : a * img.height + b < (rotate90cw img).pixels.length := by
    rw [rotate90cw_pixels_length]; exact hidx
  have hmod : (a * img.height + b) % img.height = b := by
    rw [Nat.mul_comm, Nat.mul_add_mod, Nat.mod_eq_of_lt hb]
  have hdiv : (a * img.height + b) / img.height = a := by
    rw [Nat.mul_comm, Nat.mul_add_div hb0, Nat.div_eq_of_lt hb, Nat.add_zero]
  show (rotate90cw img).pixels.getD (a * (rotate90cw img).width + b) 0 = _
  have hw : (rotate90cw img).width = img.height := rfl
  rw [hw, List.getD_eq_getElem _ _ hlen]
  simp only [rotate90cw, List.getElem_map, List.getElem_range]
  rw [hmod, hdiv]

lemma getElem_rotate90cw_pixels (img : QImage) (i : Nat)
    (h' : i < (rotate90cw img).pixels.length) :
    (rotate90cw img).pixels[i] =
      img.pixelAt (img.height - 1 - i % img.height) (i / img.height) := by
  simp only [rotate90cw, List.getElem_map, List.getElem_range]

lemma QImage.eq_of_fields {a b : QImage} (h1 : a.width = b.width)
    (h2 : a.height = b.height) (h3 : a.pixels = b.pixels) : a = b := by
  cases a; cases b; simp_all

lemma rotQuarter_four (img : QImage) (h : img.wf) :
    rotate90cw (rotate90cw (rotate90cw (rotate90cw img))) = img := by
  refine QImage.eq_of_fields rfl rfl ?_
  apply List.ext_getElem
  · show (rotate90cw (rotate90cw (rotate90cw (rotate90cw img)))).pixels.length = _
    rw [rotate90cw_pixels_length]
    rw [QImage.wf] at h
    rw [h]
    show img.height * img.width = img.width * img.height
    exact Nat.mul_comm _ _
  · intro i hi1 hi2
    have hiwh : i < img.height * img.width := by
      have h3 := hi1
      rw [rotate90cw_pixels_length] at h3
      exact h3
    have hw0 : 0 < img.width := by
      rcases Nat.eq_zero_or_pos img.width with h0 | h0
      · rw [h0, Nat.mul_zero] at hiwh; omega
      · exact h0
    have hh0 : 0 < img.height := by
      rcases Nat.eq_zero_or_pos img.height with h0 | h0
      · rw [h0, Nat.zero_mul] at hiwh; omega
      · exact h0
    have hr : i / img.width < img.height :=
      Nat.div_lt_of_lt_mul (by rw [Nat.mul_comm]; exact hiwh)
    have hc : i % img.width < img.width := Nat.mod_lt _ hw0
    have hsum : i / img.width * img.width + i % img.width = i := by
      rw [Nat.mul_comm]
      exact Nat.div_add_mod i img.width
    rw [getElem_rotate90cw_pixels]
    rw [show (rotate90cw (rotate90cw (rotate90cw img))).height = img.width from rfl]
    obtain ⟨q, hq⟩ : ∃ q, i / img.width = q := ⟨_, rfl⟩
    obtain ⟨r2, hr2⟩ : ∃ r2, i % img.width = r2 := ⟨_, rfl⟩
    rw [hq] at hr hsum ⊢
    rw [hr2] at hc hsum ⊢
    rw [pixelAt_rotate90cw (rotate90cw (rotate90cw img)) _ _
      (show img.width - 1 - r2 < (rotate90cw (rotate90cw img)).width by
        show img.width - 1 - r2 < img.width; omega)
      (show q < (rotate90cw (rotate90cw img)).height from hr)]
    rw [show (rotate90cw (rotate90cw img)).height = img.height from rfl]
    rw [pixelAt_rotate90cw (rotate90cw img) _ _
      (show img.height - 1 - q < (rotate90cw img).width by
        show img.height - 1 - q < img.height; omega)
      (show img.width - 1 - r2 < (rotate90cw img).height by
        show img.width - 1 - r2 < img.width; omega)]
    rw [show (rotate90cw img).height = img.width from rfl]
    rw [show img.width - 1 - (img.width - 1 - r2) = r2 by omega]
    rw [pixelAt_rotate90cw img _ _ (show r2 < img.width from hc)
      (show img.height - 1 - q < img.height by omega)]
    rw [show img.height - 1 - (img.height - 1 - q) = q by omega]
    show img.pixels.getD (q * img.width + r2) 0 = _
    have hlen2 : q * img.width + r2 < img.pixels.length := by
      rw [hsum]
      rw [QImage.wf] at h
      rw [h, Nat.mul_comm]
      exact hiwh
    rw [List.getD_eq_getElem _ _ hlen2]
    congr 1

lemma applyRotationAngle_90 (img : QImage) :
    applyRotationAngle 90 img = rotate90cw img := rfl

lemma applyRotationAngle_270 (img : QImage) :
    applyRotationAngle 270 img = rotate90cw (rotate90cw (rotate90cw img)) := rfl

lemma run_image_make (x : QImage) (a b : Rotation) (i : Int) (hab : a ≠ b) :
    (RotationJob.make x a b i).run.image =
      applyRotationAngle (rotationMatrixAngle a b) x := by
  simp [RotationJob.run, RotationJob.image, RotationJob.make, hab]

/-- C8: the angle applied by a rotation job from orientation `a` to `b`
is `(b - a) mod 360` degrees, so a 90-degree job followed by a 270-degree
job on the same image — in either order — composes to the identity and
returns the original image. -/
theorem c8_rotation_composition (img : QImage) (h : img.wf) :
    (∀ o n, o ≠ n →
      rotationMatrixAngle o n = (Rotation.deg n + 360 - Rotation.deg o) % 360) ∧
    composeJobs img Rotation.Rotation0 Rotation.Rotation90 Rotation.Rotation0 0 = img ∧
    composeJobs img Rotation.Rotation0 Rotation.Rotation270 Rotation.Rotation0 0 = img := by
  refine ⟨fun o n _hne => ?_, ?_, ?_⟩
  · cases o <;> cases n <;> rfl
  · unfold composeJobs
    rw [run_image_make _ _ _ _ (by simp), run_image_make _ _ _ _ (by simp)]
    rw [show rotationMatrixAngle Rotation.Rotation0 Rotation.Rotation90 = 90 from rfl]
    rw [show rotationMatrixAngle Rotation.Rotation90 Rotation.Rotation0 = 270 from rfl]
    rw [applyRotationAngle_90, applyRotationAngle_270]
    exact rotQuarter_four img h
  · unfold composeJobs
    rw [run_image_make _ _ _ _ (by simp), run_image_make _ _ _ _ (by simp)]
    rw [show rotationMatrixAngle Rotation.Rotation0 Rotation.Rotation270 = 270 from rfl]
    rw [show rotationMatrixAngle Rotation.Rotation270 Rotation.Rotation0 = 90 from rfl]
    rw [applyRotationAngle_270, applyRotationAngle_90]
    exact rotQuarter_four img h

/-- Witness for C8 at a concrete 2-by-1 image. -/
theorem c8_rotation_composition_witness :
    QImage.wf ⟨2, 1, [5, 7]⟩ ∧
    ((∀ o n, o ≠ n →
      rotationMatrixAngle o n = (Rotation.deg n + 360 - Rotation.deg o) % 360) ∧
    composeJobs ⟨2, 1, [5, 7]⟩ Rotation.Rotation0 Rotation.Rotation90 Rotation.Rotation0 0 = ⟨2, 1, [5, 7]⟩ ∧
    composeJobs ⟨2, 1, [5, 7]⟩ Rotation.Rotation0 Rotation.Rotation270 Rotation.Rotation0 0 = ⟨2, 1, [5, 7]⟩) :=
  ⟨by decide, c8_rotation_composition ⟨2, 1, [5, 7]⟩ (by decide)⟩

/-- C9: a rotation job whose source orientation equals its target is an
identity transform: `run` copies the input image into the result slot
without applying any matrix transform, changing nothing else. -/
theorem c9_same_orientation_identity (j : RotationJob)
    (h : j.mOldRotation = j.mNewRotation) :
    j.run = { j with mRotatedImage := j.mImage } ∧ j.run.image = j.mImage := by
  constructor
  · simp [RotationJob.run, h]
  · simp [RotationJob.run, RotationJob.image, h]

/-- Witness for C9 at a concrete same-orientation job. -/
theorem c9_same_orientation_identity_witness :
    (RotationJob.make ⟨1, 1, [3]⟩ Rotation.Rotation90 Rotation.Rotation90 5).run =
      { RotationJob.make ⟨1, 1, [3]⟩ Rotation.Rotation90 Rotation.Rotation90 5 with
          mRotatedImage := ⟨1, 1, [3]⟩ } ∧
    (RotationJob.make ⟨1, 1, [3]⟩ Rotation.Rotation90 Rotation.Rotation90 5).run.image =
      ⟨1, 1, [3]⟩ :=
  c9_same_orientation_identity
    (RotationJob.make ⟨1, 1, [3]⟩ Rotation.Rotation90 Rotation.Rotation90 5) rfl

/-- C10: before `run`, `image()` returns the default-constructed null
image; `id()` and `rotation()` return the construction-time request id
and target orientation and are unchanged by `run`; the result image is
delivered through `image()` only after `run` stores it. -/
theorem c10_accessor_frame :
    (∀ img o n i, (RotationJob.make img o n i).image = QImage.nullImage ∧
      (RotationJob.make img o n i).id = i ∧
      (RotationJob.make img o n i).rotation = n) ∧
    (∀ j : RotationJob, j.run.id = j.id ∧ j.run.rotation = j.rotation ∧
      j.run.mImage = j.mImage ∧ j.run.mOldRotation = j.mOldRotation) ∧
    (∀ img o i, ((RotationJob.make img o o i).run).image = img) := by
  refine ⟨fun img o n i => ⟨rfl, rfl, rfl⟩, fun j => ?_, fun img o i => ?_⟩
  · unfold RotationJob.run
    split <;> simp [RotationJob.id, RotationJob.rotation]
  · simp [RotationJob.run, RotationJob.make, RotationJob.image]

end Okular

namespace Okular

/-! ## Byte-level lemmas for the DVI model -/

lemma getD_eq_drop (buf : Buffer) (p : Nat) : buf.getD p 0 = (buf.drop p).getD 0 0 := by
  rw [List.getD_eq_getElem?_getD, List.getD_eq_getElem?_getD, List.getElem?_drop, Nat.add_zero]

lemma readU16_eq_drop (buf : Buffer) (p : Nat) : readU16 buf p = readU16 (buf.drop p) 0 := by
  simp [readU16, List.getElem?_drop]

lemma readU32_eq_drop (buf : Buffer) (p : Nat) : readU32 buf p = readU32 (buf.drop p) 0 := by
  simp [readU32, List.getElem?_drop]

lemma drop_append_len (X B : Buffer) (i : Nat) : (X ++ B).drop (X.length + i) = B.drop i :=
  List.drop_append i

lemma drop_append_self (X B : Buffer) : (X ++ B).drop X.length = B := by
  have h := drop_append_len X B 0
  rw [Nat.add_zero] at h
  rw [h, List.drop_zero]

lemma readU32_bytes (n : Nat) (rest : Buffer) (h : n < 4294967296) :
    readU32 (u32Bytes n ++ rest) 0 = some n := by
  simp only [readU32, u32Bytes]
  simp only [List.cons_append, List.getElem?_cons_zero, List.getElem?_cons_succ]
  simp only [Option.bind_eq_bind, Option.some_bind]
  congr 1
  omega

lemma readU16_bytes (n : Nat) (rest : Buffer) (h : n < 65536) :
    readU16 (u16Bytes n ++ rest) 0 = some n := by
  simp only [readU16, u16Bytes]
  simp only [List.cons_append, List.getElem?_cons_zero, List.getElem?_cons_succ]
  simp only [Option.bind_eq_bind, Option.some_bind]
  congr 1
  omega

lemma u32Bytes_length (n : Nat) : (u32Bytes n).length = 4 := rfl

lemma u16Bytes_length (n : Nat) : (u16Bytes n).length = 2 := rfl

lemma preambleBytes_length (num den mag : Nat) (comment : List Nat) :
    (preambleBytes num den mag comment).length = 15 + comment.length := by
  simp [preambleBytes, u32Bytes]
  omega

lemma pageBlock_length (prev : Nat) (c : List Nat) :
    (pageBlock prev c).length = 6 + c.length := by
  simp [pageBlock, u32Bytes]
  omega

lemma pagesBytes_length (pages : List (List Nat)) :
    ∀ start prev, (pagesBytes start prev pages).length = sizePages pages := by
  induction pages with
  | nil => intro start prev; rfl
  | cons c rest ih =>
    intro start prev
    simp [pagesBytes, sizePages, List.length_append, pageBlock_length, ih]

lemma postambleBytes_length (lastOff num den mag npages : Nat) :
    (postambleBytes lastOff num den mag npages).length = 30 := by
  simp [postambleBytes, u32Bytes, u16Bytes]

lemma trailerBytes_length (q : Nat) : (trailerBytes q).length = 10 := by
  simp [trailerBytes, u32Bytes]

lemma process_preamble_eval (num den mag : Nat) (comment rest : List Nat)
    (hnum32 : num < 4294967296) (hden32 : den < 4294967296) (hmag32 : mag < 4294967296)
    (hnum : num ≠ 0) (hden : den ≠ 0) :
    process_preamble (preambleBytes num den mag comment ++ rest) =
      .ok (⟨dviVersion, num, den, mag, comment⟩, 15 + comment.length) := by
  have h1 : (preambleBytes num den mag comment ++ rest)[0]? = some preTag := rfl
  have h2 : (preambleBytes num den mag comment ++ rest)[1]? = some dviVersion := rfl
  have hd2 : (preambleBytes num den mag comment ++ rest).drop 2 =
      u32Bytes num ++ (u32Bytes den ++ (u32Bytes mag ++ ((comment.length :: comment) ++ rest))) := by
    simp [preambleBytes, u32Bytes]
  have hd6 : (preambleBytes num den mag comment ++ rest).drop 6 =
      u32Bytes den ++ (u32Bytes mag ++ ((comment.length :: comment) ++ rest)) := by
    simp [preambleBytes, u32Bytes]
  have hd10 : (preambleBytes num den mag comment ++ rest).drop 10 =
      u32Bytes mag ++ ((comment.length :: comment) ++ rest) := by
    simp [preambleBytes, u32Bytes]
  have h3 : readU32 (preambleBytes num den mag comment ++ rest) 2 = some num := by
    rw [readU32_eq_drop, hd2]
    exact readU32_bytes _ _ hnum32
  have h4 : readU32 (preambleBytes num den mag comment ++ rest) 6 = some den := by
    rw [readU32_eq_drop, hd6]
    exact readU32_bytes _ _ hden32
  have h5 : readU32 (preambleBytes num den mag comment ++ rest) 10 = some mag := by
    rw [readU32_eq_drop, hd10]
    exact readU32_bytes _ _ hmag32
  have h6 : (preambleBytes num den mag comment ++ rest)[14]? = some comment.length := by
    rw [show (14 : Nat) = 14 + 0 from rfl, ← List.getElem?_drop]
    rw [show (preambleBytes num den mag comment ++ rest).drop 14 =
      (comment.length :: comment) ++ rest by simp [preambleBytes, u32Bytes]]
    simp
  have hlen : 15 + comment.length ≤ (preambleBytes num den mag comment ++ rest).length := by
    rw [List.length_append, preambleBytes_length]
    omega
  have hdrop15 : (preambleBytes num den mag comment ++ rest).drop 15 = comment ++ rest := by
    simp [preambleBytes, u32Bytes]
  unfold process_preamble
  simp only [h1, h2, h3, h4, h5, h6]
  simp [hnum, hden, hlen, hdrop15, List.take_left]
  rw [preambleBytes_length]
  omega

end Okular

namespace Okular

lemma countTrailingPadding_trailer (X : Buffer) (q : Nat) :
    countTrailingPadding (X ++ trailerBytes q) = 4 := by
  unfold countTrailingPadding
  rw [List.reverse_append]
  rw [show (trailerBytes q).reverse =
    paddingByte :: paddingByte :: paddingByte :: paddingByte :: dviVersion :: postPostTag ::
      (u32Bytes q).reverse by simp [trailerBytes, u32Bytes]]
  simp [List.takeWhile_cons, paddingByte, dviVersion, postPostTag]

lemma find_postamble_eval (X : Buffer) (bp : Nat) (h32 : bp < 4294967296) :
    find_postamble (X ++ trailerBytes bp) =
      if bp < (X ++ trailerBytes bp).length ∧ (X ++ trailerBytes bp).getD bp 0 = postTag
      then .ok bp else .error .CorruptPostamble := by
  have hlen : (X ++ trailerBytes bp).length = X.length + 10 := by
    rw [List.length_append, trailerBytes_length]
  have hm1 : (X ++ trailerBytes bp).getD (X.length + 4) 0 = postPostTag := by
    rw [getD_eq_drop, drop_append_len]
    rw [show (trailerBytes bp).drop 4 =
      postPostTag :: dviVersion :: [paddingByte, paddingByte, paddingByte, paddingByte] from rfl]
    exact List.getD_cons_zero
  have hm2 : (X ++ trailerBytes bp).getD (X.length + 5) 0 = dviVersion := by
    rw [getD_eq_drop, drop_append_len]
    rw [show (trailerBytes bp).drop 5 =
      dviVersion :: [paddingByte, paddingByte, paddingByte, paddingByte] from rfl]
    exact List.getD_cons_zero
  have hread : readU32 (X ++ trailerBytes bp) X.length = some bp := by
    rw [readU32_eq_drop, drop_append_self, trailerBytes]
    exact readU32_bytes _ _ h32
  unfold find_postamble
  rw [countTrailingPadding_trailer, hlen]
  rw [show X.length + 10 - 4 = X.length + 6 by omega]
  rw [if_neg (show ¬(4 = 0) by decide)]
  rw [if_neg (show ¬(X.length + 6 < 6) by omega)]
  rw [show X.length + 6 - 2 = X.length + 4 by omega]
  rw [show X.length + 6 - 1 = X.length + 5 by omega]
  rw [show X.length + 6 - 6 = X.length by omega]
  rw [if_pos ⟨hm1, hm2⟩]
  simp only [hread]

end Okular

namespace Okular

lemma getElem?_zero_drop (buf : Buffer) (p : Nat) : buf[p]? = (buf.drop p)[0]? := by
  rw [List.getElem?_drop, Nat.add_zero]

lemma drop_one_cons (x : Nat) (l : List Nat) : (x :: l).drop 1 = l := rfl

lemma readFontDefs_stop (buf : Buffer) (fuel pos : Nat) (st : ScanState)
    (hfuel : fuel ≠ 0) (hbyte : buf[pos]? = some postPostTag) :
    readFontDefs buf fuel pos st = .ok st := by
  cases fuel with
  | zero => exact absurd rfl hfuel
  | succ f => simp [readFontDefs, hbyte]

lemma read_postamble_eval (X rest' : Buffer) (pre : Preamble) (lastOff npages : Nat)
    (hlast : lastOff < 4294967296) (hnp : npages < 65536)
    (hnum32 : pre.num < 4294967296) (hden32 : pre.den < 4294967296)
    (hmag32 : pre.mag < 4294967296) :
    read_postamble (X ++ (postambleBytes lastOff pre.num pre.den pre.mag npages ++ rest'))
        pre X.length
      = .ok (⟨lastOff, pre.num, pre.den, pre.mag, 0, 0, 0, npages⟩, initialScanState) := by
  have h1 : readU32 (X ++ (postambleBytes lastOff pre.num pre.den pre.mag npages ++ rest'))
      (X.length + 1) = some lastOff := by
    rw [readU32_eq_drop, drop_append_len]
    rw [show (postambleBytes lastOff pre.num pre.den pre.mag npages ++ rest').drop 1 =
      u32Bytes lastOff ++ (u32Bytes pre.num ++ (u32Bytes pre.den ++ (u32Bytes pre.mag ++
        (u32Bytes 0 ++ (u32Bytes 0 ++ (u16Bytes 0 ++ (u16Bytes npages ++
          (postPostTag :: rest')))))))) from rfl]
    exact readU32_bytes _ _ hlast
  have h2 : readU32 (X ++ (postambleBytes lastOff pre.num pre.den pre.mag npages ++ rest'))
      (X.length + 5) = some pre.num := by
    rw [readU32_eq_drop, drop_append_len]
    rw [show (postambleBytes lastOff pre.num pre.den pre.mag npages ++ rest').drop 5 =
      u32Bytes pre.num ++ (u32Bytes pre.den ++ (u32Bytes pre.mag ++
        (u32Bytes 0 ++ (u32Bytes 0 ++ (u16Bytes 0 ++ (u16Bytes npages ++
          (postPostTag :: rest'))))))) from rfl]
    exact readU32_bytes _ _ hnum32
  have h3 : readU32 (X ++ (postambleBytes lastOff pre.num pre.den pre.mag npages ++ rest'))
      (X.length + 9) = some pre.den := by
    rw [readU32_eq_drop, drop_append_len]
    rw [show (postambleBytes lastOff pre.num pre.den pre.mag npages ++ rest').drop 9 =
      u32Bytes pre.den ++ (u32Bytes pre.mag ++
        (u32Bytes 0 ++ (u32Bytes 0 ++ (u16Bytes 0 ++ (u16Bytes npages ++
          (postPostTag :: rest')))))) from rfl]
    exact readU32_bytes _ _ hden32
  have h4 : readU32 (X ++ (postambleBytes lastOff pre.num pre.den pre.mag npages ++ rest'))
      (X.length + 13) = some pre.mag := by
    rw [readU32_eq_drop, drop_append_len]
    rw [show (postambleBytes lastOff pre.num pre.den pre.mag npages ++ rest').drop 13 =
      u32Bytes pre.mag ++ (u32Bytes 0 ++ (u32Bytes 0 ++ (u16Bytes 0 ++ (u16Bytes npages ++
        (postPostTag :: rest'))))) from rfl]
    exact readU32_bytes _ _ hmag32
  have h5 : readU32 (X ++ (postambleBytes lastOff pre.num pre.den pre.mag npages ++ rest'))
      (X.length + 17) = some 0 := by
    rw [readU32_eq_drop, drop_append_len]
    rw [show (postambleBytes lastOff pre.num pre.den pre.mag npages ++ rest').drop 17 =
      u32Bytes 0 ++ (u32Bytes 0 ++ (u16Bytes 0 ++ (u16Bytes npages ++
        (postPostTag :: rest')))) from rfl]
    exact readU32_bytes _ _ (by omega)
  have h6 : readU32 (X ++ (postambleBytes lastOff pre.num pre.den pre.mag npages ++ rest'))
      (X.length + 21) = some 0 := by
    rw [readU32_eq_drop, drop_append_len]
    rw [show (postambleBytes lastOff pre.num pre.den pre.mag npages ++ rest').drop 21 =
      u32Bytes 0 ++ (u16Bytes 0 ++ (u16Bytes npages ++ (postPostTag :: rest'))) from rfl]
    exact readU32_bytes _ _ (by omega)
  have h7 : readU16 (X ++ (postambleBytes lastOff pre.num pre.den pre.mag npages ++ rest'))
      (X.length + 25) = some 0 := by
    rw [readU16_eq_drop, drop_append_len]
    rw [show (postambleBytes lastOff pre.num pre.den pre.mag npages ++ rest').drop 25 =
      u16Bytes 0 ++ (u16Bytes npages ++ (postPostTag :: rest')) from rfl]
    exact readU16_bytes _ _ (by omega)
  have h8 : readU16 (X ++ (postambleBytes lastOff pre.num pre.den pre.mag npages ++ rest'))
      (X.length + 27) = some npages := by
    rw [readU16_eq_drop, drop_append_len]
    rw [show (postambleBytes lastOff pre.num pre.den pre.mag npages ++ rest').drop 27 =
      u16Bytes npages ++ (postPostTag :: rest') from rfl]
    exact readU16_bytes _ _ hnp
  have hbyte : (X ++ (postambleBytes lastOff pre.num pre.den pre.mag npages ++ rest'))[X.length + 29]?
      = some postPostTag := by
    rw [getElem?_zero_drop, drop_append_len]
    rw [show (postambleBytes lastOff pre.num pre.den pre.mag npages ++ rest').drop 29 =
      postPostTag :: rest' from rfl]
    exact List.getElem?_cons_zero
  have hfuel : (X ++ (postambleBytes lastOff pre.num pre.den pre.mag npages ++ rest')).length ≠ 0 := by
    rw [List.length_append, List.length_append, postambleBytes_length]
    omega
  have hfonts : readFontDefs (X ++ (postambleBytes lastOff pre.num pre.den pre.mag npages ++ rest'))
      (X ++ (postambleBytes lastOff pre.num pre.den pre.mag npages ++ rest')).length
      (X.length + 29) initialScanState = .ok initialScanState :=
    readFontDefs_stop _ _ _ _ hfuel hbyte
  unfold read_postamble
  simp only [h1, h2, h3, h4, h5, h6, h7, h8]
  rw [if_pos (show True ∧ True ∧ True from ⟨trivial, trivial, trivial⟩)]
  simp only [hfonts]

end Okular

namespace Okular

lemma offsetsOf_length : ∀ (pages : List (List Nat)) (start : Nat),
    (offsetsOf start pages).length = pages.length := by
  intro pages
  induction pages with
  | nil => intro start; rfl
  | cons c rest ih => intro start; simp [offsetsOf, ih]

lemma offsetsOf_bounds : ∀ (pages : List (List Nat)) (start : Nat),
    ∀ o ∈ offsetsOf start pages, start ≤ o ∧ o < start + sizePages pages := by
  intro pages
  induction pages with
  | nil => intro start o ho; simp [offsetsOf] at ho
  | cons c rest ih =>
    intro start o ho
    simp only [offsetsOf, List.mem_cons] at ho
    rcases ho with h | h
    · subst h
      constructor
      · exact Nat.le_refl _
      · show o < o + (6 + c.length + sizePages rest)
        omega
    · have := ih (start + (6 + c.length)) o h
      simp [sizePages]
      omega

lemma offsetsOf_pairwise : ∀ (pages : List (List Nat)) (start : Nat),
    (offsetsOf start pages).Pairwise (· < ·) := by
  intro pages
  induction pages with
  | nil => intro start; simp [offsetsOf]
  | cons c rest ih =>
    intro start
    simp only [offsetsOf, List.pairwise_cons]
    constructor
    · intro o ho
      have := offsetsOf_bounds rest (start + (6 + c.length)) o ho
      omega
    · exact ih _

lemma lastOffsetOf_mem : ∀ (pages : List (List Nat)) (start prev : Nat),
    lastOffsetOf start prev pages = prev ∨
      lastOffsetOf start prev pages ∈ offsetsOf start pages := by
  intro pages
  induction pages with
  | nil => intro start prev; exact Or.inl rfl
  | cons c rest ih =>
    intro start prev
    rcases ih (start + (6 + c.length)) start with h | h
    · right
      rw [show lastOffsetOf start prev (c :: rest) =
        lastOffsetOf (start + (6 + c.length)) start rest from rfl, h]
      simp [offsetsOf]
    · right
      rw [show lastOffsetOf start prev (c :: rest) =
        lastOffsetOf (start + (6 + c.length)) start rest from rfl]
      simp only [offsetsOf, List.mem_cons]
      exact Or.inr h

lemma chasePages_gen (buf : Buffer) :
    ∀ (pages : List (List Nat)) (start prev0 m : Nat) (A B : Buffer),
      buf = A ++ (pagesBytes start prev0 pages ++ B) →
      A.length = start →
      prev0 < 4294967296 →
      buf.length < 4294967296 →
      chasePages buf (pages.length + m) (lastOffsetOf start prev0 pages) =
        (chasePages buf m prev0).map (fun l => l ++ offsetsOf start pages) := by
  intro pages
  induction pages with
  | nil =>
    intro start prev0 m A B hbuf hA hp hb
    show chasePages buf (0 + m) prev0 = _
    rw [Nat.zero_add]
    cases h : chasePages buf m prev0 <;> simp [Except.map, offsetsOf, h]
  | cons c rest ih =>
    intro start prev0 m A B hbuf hA hp hb
    have heq : buf = A ++ (bopTag :: (u32Bytes prev0 ++ (c ++ (eopTag ::
        (pagesBytes (start + (6 + c.length)) start rest ++ B))))) := by
      rw [hbuf]
      simp [pagesBytes, pageBlock, List.append_assoc, List.cons_append]
    have hstart32 : start < 4294967296 := by
      have hle : A.length ≤ buf.length := by
        rw [hbuf, List.length_append]
        omega
      omega
    have hbuf' : buf = (A ++ pageBlock prev0 c) ++
        (pagesBytes (start + (6 + c.length)) start rest ++ B) := by
      rw [hbuf]
      simp [pagesBytes, List.append_assoc]
    have hA' : (A ++ pageBlock prev0 c).length = start + (6 + c.length) := by
      rw [List.length_append, pageBlock_length, hA]
    have hlt : start < buf.length := by
      rw [heq, List.length_append, hA] at *
      rw [List.length_cons]
      omega
    have htag : buf.getD start 0 = bopTag := by
      rw [heq, ← hA, getD_eq_drop, drop_append_self]
      exact List.getD_cons_zero
    have hprev : readU32 buf (start + 1) = some prev0 := by
      rw [heq, ← hA]
      rw [readU32_eq_drop]
      rw [drop_append_len]
      rw [drop_one_cons]
      exact readU32_bytes _ _ hp
    have hstep : chasePages buf (m + 1) start =
        (chasePages buf m prev0).map (fun l => l ++ [start]) := by
      simp only [chasePages]
      rw [if_pos hlt, if_pos htag]
      simp only [hprev]
      cases h' : chasePages buf m prev0 <;> simp [Except.map, h']
    rw [show (c :: rest).length + m = rest.length + (m + 1) by simp; omega]
    rw [show lastOffsetOf start prev0 (c :: rest) =
      lastOffsetOf (start + (6 + c.length)) start rest from rfl]
    rw [ih (start + (6 + c.length)) start (m + 1) (A ++ pageBlock prev0 c) B hbuf' hA' hstart32 hb]
    rw [hstep]
    rw [show offsetsOf start (c :: rest) =
      start :: offsetsOf (start + (6 + c.length)) rest from rfl]
    cases h' : chasePages buf m prev0 <;> simp [Except.map, h']

lemma chasePages_pages (buf : Buffer) (pages : List (List Nat)) (start : Nat) (A B : Buffer)
    (hbuf : buf = A ++ (pagesBytes start 0 pages ++ B)) (hA : A.length = start)
    (hb : buf.length < 4294967296) :
    chasePages buf pages.length (lastOffsetOf start 0 pages) = .ok (offsetsOf start pages) := by
  have hgen := chasePages_gen buf pages start 0 0 A B hbuf hA (by omega) hb
  rw [Nat.add_zero] at hgen
  rw [hgen]
  rw [show chasePages buf 0 0 = .ok [] from rfl]
  simp [Except.map]

end Okular

namespace Okular

lemma mkDvi_length (num den mag : Nat) (comment : List Nat) (pages : List (List Nat)) :
    (mkDvi num den mag comment pages).length = 55 + comment.length + sizePages pages := by
  simp [mkDvi, List.length_append, preambleBytes_length, pagesBytes_length,
    postambleBytes_length, trailerBytes_length]
  omega

lemma load_mkDvi (num den mag : Nat) (comment : List Nat) (pages : List (List Nat))
    (hnum : num ≠ 0) (hden : den ≠ 0)
    (hnum32 : num < 4294967296) (hden32 : den < 4294967296) (hmag32 : mag < 4294967296)
    (hnp : pages.length < 65536)
    (hlen : (mkDvi num den mag comment pages).length < 4294967296) :
    load (mkDvi num den mag comment pages) = .ok (mkDviFile num den mag comment pages) := by
  have hmkeq := mkDvi_length num den mag comment pages
  have hXlen : (preambleBytes num den mag comment ++
      pagesBytes (15 + comment.length) 0 pages).length =
      15 + comment.length + sizePages pages := by
    simp [List.length_append, preambleBytes_length, pagesBytes_length]
  have hpost32 : 15 + comment.length + sizePages pages < 4294967296 := by omega
  have hlast32 : lastOffsetOf (15 + comment.length) 0 pages < 4294967296 := by
    rcases lastOffsetOf_mem pages (15 + comment.length) 0 with h | h
    · rw [h]; omega
    · have := offsetsOf_bounds pages (15 + comment.length) _ h
      omega
  have hpre : process_preamble (mkDvi num den mag comment pages) =
      .ok (⟨dviVersion, num, den, mag, comment⟩, 15 + comment.length) := by
    rw [show mkDvi num den mag comment pages =
      preambleBytes num den mag comment ++
        (pagesBytes (15 + comment.length) 0 pages ++
          (postambleBytes (lastOffsetOf (15 + comment.length) 0 pages) num den mag pages.length ++
            trailerBytes (15 + comment.length + sizePages pages))) by
      simp [mkDvi, List.append_assoc]]
    exact process_preamble_eval num den mag comment _ hnum32 hden32 hmag32 hnum hden
  have htag : (mkDvi num den mag comment pages).getD
      (15 + comment.length + sizePages pages) 0 = postTag := by
    rw [show mkDvi num den mag comment pages =
      (preambleBytes num den mag comment ++ pagesBytes (15 + comment.length) 0 pages) ++
        (postambleBytes (lastOffsetOf (15 + comment.length) 0 pages) num den mag pages.length ++
          trailerBytes (15 + comment.length + sizePages pages)) by
      simp [mkDvi, List.append_assoc]]
    rw [← hXlen, getD_eq_drop, drop_append_self]
    simp [postambleBytes, List.cons_append, List.getD_cons_zero]
  have hfind : find_postamble (mkDvi num den mag comment pages) =
      .ok (15 + comment.length + sizePages pages) := by
    rw [show mkDvi num den mag comment pages =
      ((preambleBytes num den mag comment ++ pagesBytes (15 + comment.length) 0 pages) ++
        postambleBytes (lastOffsetOf (15 + comment.length) 0 pages) num den mag pages.length) ++
        trailerBytes (15 + comment.length + sizePages pages) from rfl]
    rw [find_postamble_eval _ _ hpost32]
    have hlt2 : 15 + comment.length + sizePages pages <
        (((preambleBytes num den mag comment ++ pagesBytes (15 + comment.length) 0 pages) ++
          postambleBytes (lastOffsetOf (15 + comment.length) 0 pages) num den mag pages.length) ++
          trailerBytes (15 + comment.length + sizePages pages)).length := by
      show 15 + comment.length + sizePages pages < (mkDvi num den mag comment pages).length
      omega
    rw [if_pos ⟨hlt2, htag⟩]
  have hread : read_postamble (mkDvi num den mag comment pages)
      ⟨dviVersion, num, den, mag, comment⟩ (15 + comment.length + sizePages pages) =
      .ok (⟨lastOffsetOf (15 + comment.length) 0 pages, num, den, mag, 0, 0, 0, pages.length⟩,
        initialScanState) := by
    have h0 := read_postamble_eval
      (preambleBytes num den mag comment ++ pagesBytes (15 + comment.length) 0 pages)
      (trailerBytes (15 + comment.length + sizePages pages))
      ⟨dviVersion, num, den, mag, comment⟩
      (lastOffsetOf (15 + comment.length) 0 pages) pages.length
      hlast32 hnp hnum32 hden32 hmag32
    dsimp only at h0
    rw [hXlen] at h0
    rw [show (preambleBytes num den mag comment ++ pagesBytes (15 + comment.length) 0 pages) ++
        (postambleBytes (lastOffsetOf (15 + comment.length) 0 pages) num den mag pages.length ++
          trailerBytes (15 + comment.length + sizePages pages)) = mkDvi num den mag comment pages by
      simp [mkDvi, List.append_assoc]] at h0
    exact h0
  have hchase : chasePages (mkDvi num den mag comment pages) pages.length
      (lastOffsetOf (15 + comment.length) 0 pages) =
      .ok (offsetsOf (15 + comment.length) pages) := by
    refine chasePages_pages _ pages (15 + comment.length) (preambleBytes num den mag comment)
      (postambleBytes (lastOffsetOf (15 + comment.length) 0 pages) num den mag pages.length ++
        trailerBytes (15 + comment.length + sizePages pages)) ?_ ?_ hlen
    · simp [mkDvi, List.append_assoc]
    · exact preambleBytes_length num den mag comment
  unfold load
  simp only [hpre, hfind, hread, hchase]
  rfl

/-- C1: loading a synthetic valid DVI buffer with N pages yields page
count N and a page-offset table with exactly N entries, strictly
increasing in page index, all within the bounds of the loaded buffer. -/
theorem c1_page_table (num den mag : Nat) (comment : List Nat) (pages : List (List Nat))
    (hnum : num ≠ 0) (hden : den ≠ 0)
    (hnum32 : num < 4294967296) (hden32 : den < 4294967296) (hmag32 : mag < 4294967296)
    (hcomment : comment.length < 256) (hnp : pages.length < 65536)
    (hlen : (mkDvi num den mag comment pages).length < 4294967296) :
    ∃ d, load (mkDvi num den mag comment pages) = .ok d ∧
      d.total_pages = pages.length ∧
      d.page_offset.length = pages.length ∧
      d.page_offset.Pairwise (· < ·) ∧
      ∀ o ∈ d.page_offset, o < (mkDvi num den mag comment pages).length := by
  refine ⟨mkDviFile num den mag comment pages,
    load_mkDvi num den mag comment pages hnum hden hnum32 hden32 hmag32 hnp hlen,
    rfl, ?_, ?_, ?_⟩
  · exact offsetsOf_length pages _
  · exact offsetsOf_pairwise pages _
  · intro o ho
    have hb := offsetsOf_bounds pages (15 + comment.length) o ho
    have hmk := mkDvi_length num den mag comment pages
    omega

/-- Witness for C1 on a concrete two-page synthetic buffer. -/
theorem c1_page_table_witness :
    ∃ d, load (mkDvi 25400000 473628672 1000 [] [[], [7]]) = .ok d ∧
      d.total_pages = ([[], [7]] : List (List Nat)).length ∧
      d.page_offset.length = ([[], [7]] : List (List Nat)).length ∧
      d.page_offset.Pairwise (· < ·) ∧
      ∀ o ∈ d.page_offset, o < (mkDvi 25400000 473628672 1000 [] [[], [7]]).length :=
  c1_page_table 25400000 473628672 1000 [] [[], [7]]
    (by decide) (by decide) (by decide) (by decide) (by decide) (by decide) (by decide)
    (by decide)

end Okular

namespace Okular

lemma load_err_pre (buf : Buffer) (e : LoadError)
    (h : process_preamble buf = .error e) : load buf = .error e := by
  unfold load
  simp only [h]

lemma load_err_find (buf : Buffer) (pre : Preamble) (c : Nat) (e : LoadError)
    (h1 : process_preamble buf = .ok (pre, c))
    (h2 : find_postamble buf = .error e) : load buf = .error e := by
  unfold load
  simp only [h1, h2]

lemma load_err_read (buf : Buffer) (pre : Preamble) (c p : Nat) (e : LoadError)
    (h1 : process_preamble buf = .ok (pre, c))
    (h2 : find_postamble buf = .ok p)
    (h3 : read_postamble buf pre p = .error e) : load buf = .error e := by
  unfold load
  simp only [h1, h2, h3]

lemma load_err_chase (buf : Buffer) (pre : Preamble) (c p : Nat)
    (post : Postamble) (st1 : ScanState) (e : LoadError)
    (h1 : process_preamble buf = .ok (pre, c))
    (h2 : find_postamble buf = .ok p)
    (h3 : read_postamble buf pre p = .ok (post, st1))
    (h4 : chasePages buf post.totalPages post.lastPageOffset = .error e) :
    load buf = .error e := by
  unfold load
  simp only [h1, h2, h3, h4]

/-- C2: a hard error raised by any pass is the result of the whole load,
which is atomic: an `Except.error` result carries no `dvifile`, so no
partially initialized file is ever observable, and every error is one of
the five typed hard failures. -/
theorem c2_hard_error_atomicity :
    (∀ buf e, process_preamble buf = .error e → load buf = .error e) ∧
    (∀ buf pre c e, process_preamble buf = .ok (pre, c) →
      find_postamble buf = .error e → load buf = .error e) ∧
    (∀ buf pre c p e, process_preamble buf = .ok (pre, c) → find_postamble buf = .ok p →
      read_postamble buf pre p = .error e → load buf = .error e) ∧
    (∀ buf pre c p post st1 e, process_preamble buf = .ok (pre, c) →
      find_postamble buf = .ok p → read_postamble buf pre p = .ok (post, st1) →
      chasePages buf post.totalPages post.lastPageOffset = .error e →
      load buf = .error e) ∧
    (∀ buf e, load buf = .error e →
      e = LoadError.MalformedHeader ∨ e = LoadError.TruncatedFile ∨
      e = LoadError.CorruptPostamble ∨ e = LoadError.InconsistentUnits ∨
      e = LoadError.CorruptPage) := by
  refine ⟨load_err_pre, ?_, ?_, ?_, ?_⟩
  · intro buf pre c e h1 h2
    exact load_err_find buf pre c e h1 h2
  · intro buf pre c p e h1 h2 h3
    exact load_err_read buf pre c p e h1 h2 h3
  · intro buf pre c p post st1 e h1 h2 h3 h4
    exact load_err_chase buf pre c p post st1 e h1 h2 h3 h4
  · intro buf e _
    cases e
    · exact Or.inl rfl
    · exact Or.inr (Or.inl rfl)
    · exact Or.inr (Or.inr (Or.inl rfl))
    · exact Or.inr (Or.inr (Or.inr (Or.inl rfl)))
    · exact Or.inr (Or.inr (Or.inr (Or.inr rfl)))

/-- Witness for C2: the empty byte source fails the preamble pass, and
the load returns that same typed failure. -/
theorem c2_hard_error_atomicity_witness :
    load [] = Except.error LoadError.MalformedHeader :=
  c2_hard_error_atomicity.1 [] LoadError.MalformedHeader rfl

/-- C3: on every successful load, all four passes ran to completion and
every public field holds its final, pass-assembled value; after
construction the only mutators are the external error-counter increment
and the one-shot notice-flag clear, each of which changes nothing else. -/
theorem c3_all_passes_complete :
    (∀ buf, loadCompleteness buf) ∧
    (∀ d : dvifile, (d.clearSourceSpecialMarker).total_pages = d.total_pages ∧
      (d.clearSourceSpecialMarker).page_offset = d.page_offset ∧
      (d.clearSourceSpecialMarker).tn_table = d.tn_table ∧
      (d.clearSourceSpecialMarker).errorCounter = d.errorCounter ∧
      (d.clearSourceSpecialMarker).numberOfExternalPSFiles = d.numberOfExternalPSFiles ∧
      (d.clearSourceSpecialMarker).cmPerDVIunit = d.cmPerDVIunit ∧
      (d.clearSourceSpecialMarker).sourceSpecialMarker = false ∧
      (d.bumpErrorCounter).total_pages = d.total_pages ∧
      (d.bumpErrorCounter).page_offset = d.page_offset ∧
      (d.bumpErrorCounter).tn_table = d.tn_table ∧
      (d.bumpErrorCounter).sourceSpecialMarker = d.sourceSpecialMarker ∧
      (d.bumpErrorCounter).errorCounter = d.errorCounter + 1) := by
  constructor
  · intro buf
    unfold loadCompleteness
    cases hl : load buf with
    | error e => trivial
    | ok d =>
      unfold load at hl
      cases h1 : process_preamble buf with
      | error e =>
        simp only [h1] at hl
        exact Except.noConfusion hl
      | ok pc =>
        obtain ⟨pre, c⟩ := pc
        simp only [h1] at hl
        cases h2 : find_postamble buf with
        | error e =>
          simp only [h2] at hl
          exact Except.noConfusion hl
        | ok p =>
          simp only [h2] at hl
          cases h3 : read_postamble buf pre p with
          | error e =>
            simp only [h3] at hl
            exact Except.noConfusion hl
          | ok ps =>
            obtain ⟨post, st1⟩ := ps
            simp only [h3] at hl
            cases h4 : chasePages buf post.totalPages post.lastPageOffset with
            | error e =>
              simp only [h4] at hl
              exact Except.noConfusion hl
            | ok offs =>
              simp only [h4, Except.ok.injEq] at hl
              subst hl
              exact ⟨pre, c, p, post, st1, offs, rfl, rfl, h3, h4, rfl, rfl, rfl, rfl,
                rfl, rfl, rfl, rfl, rfl, rfl, rfl, rfl, rfl, rfl⟩
  · intro d
    exact ⟨rfl, rfl, rfl, rfl, rfl, rfl, rfl, rfl, rfl, rfl, rfl, rfl⟩

end Okular

namespace Okular

lemma process_preamble_ok_units (buf : Buffer) (pre : Preamble) (c : Nat)
    (h : process_preamble buf = .ok (pre, c)) : pre.num ≠ 0 ∧ pre.den ≠ 0 := by
  unfold process_preamble at h
  split at h
  · split at h
    · rename_i hcond
      obtain ⟨-, hn, hd, -⟩ := hcond
      simp only [Except.ok.injEq, Prod.mk.injEq] at h
      obtain ⟨h1, -⟩ := h
      rw [← h1]
      exact ⟨hn, hd⟩
    · exact Except.noConfusion h
  · exact Except.noConfusion h

lemma process_preamble_zero (buf : Buffer) (num den : Nat)
    (h2 : readU32 buf 2 = some num) (h6 : readU32 buf 6 = some den)
    (hz : num = 0 ∨ den = 0) :
    process_preamble buf = .error .MalformedHeader := by
  unfold process_preamble
  split
  · rename_i t v num' den' mag k he0 he1 he2 he6 he10 he14
    rw [h2] at he2
    rw [h6] at he6
    injection he2 with he2
    injection he6 with he6
    subst he2
    subst he6
    rw [if_neg]
    intro hcond
    obtain ⟨-, hn, hd, -⟩ := hcond
    rcases hz with h | h
    · exact hn h
    · exact hd h
  · rfl

/-- C5: a preamble carrying a zero unit numerator or denominator makes
the load fail with `MalformedHeader`, and a successful preamble parse
guarantees both are nonzero — so the cached centimeters-per-unit value is
only ever computed from a nonzero denominator. -/
theorem c5_zero_units_rejected :
    (∀ buf num den, readU32 buf 2 = some num → readU32 buf 6 = some den →
      (num = 0 ∨ den = 0) → load buf = .error .MalformedHeader) ∧
    (∀ buf pre c, process_preamble buf = .ok (pre, c) → pre.num ≠ 0 ∧ pre.den ≠ 0) := by
  constructor
  · intro buf num den h2 h6 hz
    exact load_err_pre buf _ (process_preamble_zero buf num den h2 h6 hz)
  · exact process_preamble_ok_units

/-- Witness for C5 at a concrete buffer whose denominator field is 0. -/
theorem c5_zero_units_rejected_witness :
    load (preambleBytes 1 0 1000 [] ++ [0]) = Except.error LoadError.MalformedHeader :=
  c5_zero_units_rejected.1 (preambleBytes 1 0 1000 [] ++ [0]) 1 0
    (by rfl) (by rfl) (Or.inr rfl)

lemma readFontDefs_error (buf : Buffer) :
    ∀ (fuel pos : Nat) (st : ScanState) (e : LoadError),
      readFontDefs buf fuel pos st = .error e → e = LoadError.CorruptPostamble := by
  intro fuel
  induction fuel with
  | zero =>
    intro pos st e h
    unfold readFontDefs at h
    injection h with h
    exact h.symm
  | succ f ih =>
    intro pos st e h
    unfold readFontDefs at h
    split at h
    · injection h with h
      exact h.symm
    · split at h
      · exact Except.noConfusion h
      · split at h
        · split at h
          · split at h
            · exact ih _ _ _ h
            · injection h with h
              exact h.symm
          · injection h with h
            exact h.symm
        · injection h with h
          exact h.symm

/-- C6: a font-definition record whose id is already registered with a
differing checksum is tolerated, not fatal: the registry keeps the
first-seen definition unchanged, the error counter is incremented by
exactly one, and the font-record loop can only ever hard-fail on buffer
exhaustion (`CorruptPostamble`), never on a duplicate. -/
theorem c6_duplicate_font_tolerated (st : ScanState) (fd old : TeXFontDefinition)
    (hl : lookupFont st.tn_table fd.fontId = some old)
    (hc : old.checksum ≠ fd.checksum) :
    defineFont st fd = { st with errorCounter := st.errorCounter + 1, anomalies := st.anomalies ++ [Anomaly.DuplicateFontChecksum] } ∧
    (defineFont st fd).tn_table = st.tn_table ∧
    (defineFont st fd).errorCounter = st.errorCounter + 1 ∧
    lookupFont (defineFont st fd).tn_table fd.fontId = some old ∧
    (∀ buf fuel pos st2 e, readFontDefs buf fuel pos st2 = .error e →
      e = LoadError.CorruptPostamble) := by
  have h1 : defineFont st fd = { st with errorCounter := st.errorCounter + 1, anomalies := st.anomalies ++ [Anomaly.DuplicateFontChecksum] } := by
    unfold defineFont
    simp only [hl]
    rw [if_pos hc]
  refine ⟨h1, by rw [h1], by rw [h1], by rw [h1]; exact hl, ?_⟩
  intro buf fuel pos st2 e h
  exact readFontDefs_error buf fuel pos st2 e h

/-- Witness for C6 at a concrete registry with a conflicting duplicate. -/
theorem c6_duplicate_font_tolerated_witness :
    defineFont ⟨[⟨1, 10, 0, 0, []⟩], 0, [], 0, false⟩ ⟨1, 11, 0, 0, []⟩ =
      { (⟨[⟨1, 10, 0, 0, []⟩], 0, [], 0, false⟩ : ScanState) with errorCounter := 0 + 1, anomalies := ([] : List Anomaly) ++ [Anomaly.DuplicateFontChecksum] } ∧
    (defineFont ⟨[⟨1, 10, 0, 0, []⟩], 0, [], 0, false⟩ ⟨1, 11, 0, 0, []⟩).tn_table =
      [⟨1, 10, 0, 0, []⟩] ∧
    (defineFont ⟨[⟨1, 10, 0, 0, []⟩], 0, [], 0, false⟩ ⟨1, 11, 0, 0, []⟩).errorCounter = 0 + 1 ∧
    lookupFont (defineFont ⟨[⟨1, 10, 0, 0, []⟩], 0, [], 0, false⟩
      ⟨1, 11, 0, 0, []⟩).tn_table 1 = some ⟨1, 10, 0, 0, []⟩ ∧
    (∀ buf fuel pos st2 e, readFontDefs buf fuel pos st2 = .error e →
      e = LoadError.CorruptPostamble) :=
  c6_duplicate_font_tolerated ⟨[⟨1, 10, 0, 0, []⟩], 0, [], 0, false⟩ ⟨1, 11, 0, 0, []⟩
    ⟨1, 10, 0, 0, []⟩ (by rfl) (by decide)

/-- C7: when the trailer's back-pointer lands outside the buffer or on a
byte that is not the postamble tag, the locator fails with
`CorruptPostamble`; in particular, with a parseable preamble, a
back-pointer past end-of-buffer makes the whole load fail with
`CorruptPostamble`. -/
theorem c7_corrupt_backptr :
    (∀ X bp, bp < 4294967296 →
      ¬(bp < (X ++ trailerBytes bp).length ∧ (X ++ trailerBytes bp).getD bp 0 = postTag) →
      find_postamble (X ++ trailerBytes bp) = .error .CorruptPostamble) ∧
    (∀ X bp pre c, bp < 4294967296 →
      process_preamble (X ++ trailerBytes bp) = .ok (pre, c) →
      (X ++ trailerBytes bp).length ≤ bp →
      load (X ++ trailerBytes bp) = .error .CorruptPostamble) := by
  have h1 : ∀ X bp, bp < 4294967296 →
      ¬(bp < (X ++ trailerBytes bp).length ∧ (X ++ trailerBytes bp).getD bp 0 = postTag) →
      find_postamble (X ++ trailerBytes bp) = .error .CorruptPostamble := by
    intro X bp h32 hno
    rw [find_postamble_eval X bp h32]
    rw [if_neg hno]
  refine ⟨h1, ?_⟩
  intro X bp pre c h32 hpre hge
  refine load_err_find _ pre c _ hpre (h1 X bp h32 ?_)
  intro hcond
  omega

/-- Witness for C7: a valid preamble followed by a trailer whose
back-pointer points far past end-of-buffer. -/
theorem c7_corrupt_backptr_witness :
    load (preambleBytes 1 1 1000 [] ++ trailerBytes 100) =
      Except.error LoadError.CorruptPostamble :=
  c7_corrupt_backptr.2 (preambleBytes 1 1 1000 []) 100 ⟨dviVersion, 1, 1, 1000, []⟩ 15
    (by decide) (by rfl) (by decide)

end Okular

namespace Okular

lemma defineFont_inv (st : ScanState) (fd : TeXFontDefinition)
    (h : st.errorCounter = st.anomalies.length) :
    (defineFont st fd).errorCounter = (defineFont st fd).anomalies.length := by
  unfold defineFont
  cases hl : lookupFont st.tn_table fd.fontId with
  | none => simp [h]
  | some old =>
    by_cases hch : old.checksum ≠ fd.checksum
    · simp [hch, h]
    · simp [hch, h]

lemma defineFont_mono (st : ScanState) (fd : TeXFontDefinition) :
    st.errorCounter ≤ (defineFont st fd).errorCounter := by
  unfold defineFont
  cases hl : lookupFont st.tn_table fd.fontId with
  | none => simp
  | some old =>
    by_cases hch : old.checksum ≠ fd.checksum
    · simp [hch]
    · simp [hch]

lemma refFont_inv (st : ScanState) (fid : Nat)
    (h : st.errorCounter = st.anomalies.length) :
    (refFont st fid).errorCounter = (refFont st fid).anomalies.length := by
  unfold refFont
  cases hl : lookupFont st.tn_table fid with
  | none => simp [h]
  | some old => simp [h]

lemma refFont_mono (st : ScanState) (fid : Nat) :
    st.errorCounter ≤ (refFont st fid).errorCounter := by
  unfold refFont
  cases hl : lookupFont st.tn_table fid with
  | none => simp
  | some old => simp

lemma recordSpecial_counter (st : ScanState) (content : List Nat) :
    (recordSpecial st content).errorCounter = st.errorCounter := rfl

lemma recordSpecial_anomalies (st : ScanState) (content : List Nat) :
    (recordSpecial st content).anomalies = st.anomalies := rfl

lemma scanPageContent_inv (buf : Buffer) :
    ∀ (fuel pos stop : Nat) (st : ScanState),
      st.errorCounter = st.anomalies.length →
      (scanPageContent buf fuel pos stop st).errorCounter =
        (scanPageContent buf fuel pos stop st).anomalies.length := by
  intro fuel
  induction fuel with
  | zero => intro pos stop st h; exact h
  | succ f ih =>
    intro pos stop st h
    unfold scanPageContent
    split
    · exact h
    · split
      · exact h
      · split
        · exact h
        · split
          · split
            · exact h
            · exact ih _ _ _ (refFont_inv st _ h)
          · split
            · split
              · exact h
              · split
                · refine ih _ _ _ ?_
                  rw [recordSpecial_counter, recordSpecial_anomalies]
                  exact h
                · simp [h]
            · exact ih _ _ _ h

lemma scanPageContent_mono (buf : Buffer) :
    ∀ (fuel pos stop : Nat) (st : ScanState),
      st.errorCounter ≤ (scanPageContent buf fuel pos stop st).errorCounter := by
  intro fuel
  induction fuel with
  | zero => intro pos stop st; exact Nat.le_refl _
  | succ f ih =>
    intro pos stop st
    unfold scanPageContent
    split
    · exact Nat.le_refl _
    · split
      · exact Nat.le_refl _
      · split
        · exact Nat.le_refl _
        · split
          · split
            · exact Nat.le_refl _
            · exact Nat.le_trans (refFont_mono st _) (ih _ _ _)
          · split
            · split
              · exact Nat.le_refl _
              · split
                · refine Nat.le_trans ?_ (ih _ _ _)
                  rw [recordSpecial_counter]
                · simp
            · exact ih _ _ _

lemma readFontDefs_inv (buf : Buffer) :
    ∀ (fuel pos : Nat) (st st' : ScanState),
      st.errorCounter = st.anomalies.length →
      readFontDefs buf fuel pos st = .ok st' →
      st'.errorCounter = st'.anomalies.length := by
  intro fuel
  induction fuel with
  | zero =>
    intro pos st st' h hr
    exact Except.noConfusion hr
  | succ f ih =>
    intro pos st st' h hr
    unfold readFontDefs at hr
    split at hr
    · exact Except.noConfusion hr
    · split at hr
      · injection hr with hr
        rw [← hr]
        exact h
      · split at hr
        · split at hr
          · split at hr
            · exact ih _ _ _ (defineFont_inv st _ h) hr
            · exact Except.noConfusion hr
          · exact Except.noConfusion hr
        · exact Except.noConfusion hr

lemma prepare_pages_inv (buf : Buffer) :
    ∀ (offs : List Nat) (postOff : Nat) (st : ScanState),
      st.errorCounter = st.anomalies.length →
      (prepare_pages buf offs postOff st).errorCounter =
        (prepare_pages buf offs postOff st).anomalies.length := by
  intro offs
  induction offs with
  | nil => intro postOff st h; exact h
  | cons o rest ih =>
    intro postOff st h
    unfold prepare_pages
    exact ih _ _ (scanPageContent_inv buf _ _ _ _ h)

lemma read_postamble_inv (buf : Buffer) (pre : Preamble) (p : Nat)
    (post : Postamble) (st1 : ScanState)
    (h : read_postamble buf pre p = .ok (post, st1)) :
    st1.errorCounter = st1.anomalies.length := by
  unfold read_postamble at h
  split at h
  · split at h
    · split at h
      · rename_i st hfd
        injection h with h'
        have hst : st = st1 := congrArg Prod.snd h'
        rw [← hst]
        exact readFontDefs_inv buf _ _ _ _ rfl hfd
      · exact Except.noConfusion h
    · exact Except.noConfusion h
  · exact Except.noConfusion h

/-- C4: the error counter starts at zero, each tolerated anomaly adds
exactly one entry to the anomaly log together with one counter increment
(so the final counter equals the number of tolerated anomalies), every
scanning step is monotonically non-decreasing, and the only anomaly kinds
are the three tolerated ones. -/
theorem c4_error_counter_meaning :
    (∀ buf, counterInvariant (load buf)) ∧
    initialScanState.errorCounter = 0 ∧
    (∀ st fid, st.errorCounter ≤ (refFont st fid).errorCounter) ∧
    (∀ st fd, st.errorCounter ≤ (defineFont st fd).errorCounter) ∧
    (∀ buf fuel pos stop st,
      st.errorCounter ≤ (scanPageContent buf fuel pos stop st).errorCounter) ∧
    (∀ a : Anomaly, a = Anomaly.DuplicateFontChecksum ∨ a = Anomaly.UndefinedFontRef ∨
      a = Anomaly.MalformedSpecial) := by
  refine ⟨?_, rfl, refFont_mono, defineFont_mono,
    fun buf fuel pos stop st => scanPageContent_mono buf fuel pos stop st, ?_⟩
  · intro buf
    unfold counterInvariant
    cases hl : load buf with
    | error e => trivial
    | ok d =>
      unfold load at hl
      cases h1 : process_preamble buf with
      | error e =>
        simp only [h1] at hl
        exact Except.noConfusion hl
      | ok pc =>
        obtain ⟨pre, c⟩ := pc
        simp only [h1] at hl
        cases h2 : find_postamble buf with
        | error e =>
          simp only [h2] at hl
          exact Except.noConfusion hl
        | ok p =>
          simp only [h2] at hl
          cases h3 : read_postamble buf pre p with
          | error e =>
            simp only [h3] at hl
            exact Except.noConfusion hl
          | ok ps =>
            obtain ⟨post, st1⟩ := ps
            simp only [h3] at hl
            cases h4 : chasePages buf post.totalPages post.lastPageOffset with
            | error e =>
              simp only [h4] at hl
              exact Except.noConfusion hl
            | ok offs =>
              simp only [h4, Except.ok.injEq] at hl
              subst hl
              exact prepare_pages_inv buf offs p st1 (read_postamble_inv buf pre p post st1 h3)
  · intro a
    cases a
    · exact Or.inl rfl
    · exact Or.inr (Or.inl rfl)
    · exact Or.inr (Or.inr rfl)

end Okular
